import Mathlib

/-!
Verification of the voice-agent audio relay server against its specification.

The definitions below are shallow embeddings of the TypeScript sources:
  - `src/types/twilio-audio-processor.ts` (frame buffer, noise gate, session state),
  - `src/server/voice-agent-server.ts` (connection supervisor, function-call dispatch).

Modelling conventions: byte buffers are `List Nat` (one entry per byte),
16-bit PCM samples are `Int`, and JavaScript numbers that may be
`undefined` (missing config fields, `NaN` results) are `Option` values.
Any JavaScript `>`/`>=` comparison in which one side is `undefined`
evaluates to `false`, which the `jsGt`/`jsGe` helpers reproduce.
-/

/-! ## Frame buffer (`TwilioAudioProcessor.getBufferSize` / `extractChunk`) -/

/-- Embeds `getBufferSize`: cumulative byte length of the pending fragments,
`this.inBuffer.reduce((total, chunk) => total + chunk.length, 0)`. -/
def getBufferSize (inBuffer : List (List Nat)) : Nat :=
  inBuffer.foldl (fun total chunk => total + chunk.length) 0

/-- The counting loop at the top of `extractChunk`: accumulate fragment
lengths (starting from `acc`, initially 0) until the running total first
reaches `size`; return the number of fragments consumed, or `none` when the
loop finishes without reaching `size` (`chunkCount` stays `0` in the source). -/
def chunksNeeded (size : Nat) : List (List Nat) → Nat → Option Nat
  | [], _ => none
  | chunk :: rest, acc =>
    if size ≤ acc + chunk.length then some 1
    else
      match chunksNeeded size rest (acc + chunk.length) with
      | none => none
      | some k => some (k + 1)

/-- Embeds `extractChunk(size)`. The source mutates `this.inBuffer` in place
(`splice`, `unshift`); here the new buffer is returned alongside the optional
frame. When `chunkCount` is `0` the source returns `null` without touching
the buffer, hence `(none, buf)`. -/
def extractChunk (size : Nat) (buf : List (List Nat)) :
    Option (List Nat) × List (List Nat) :=
  match chunksNeeded size buf 0 with
  | none => (none, buf)
  | some k =>
    let result := (buf.take k).flatten
    let rest := buf.drop k
    if size < result.length then (some (result.take size), result.drop size :: rest)
    else (some result, rest)

/-- The caller's drain loop ("loop `extractFrame` until it returns none").
`fuel` bounds the number of iterations; `getBufferSize buf` is always enough
fuel because every successful extraction removes `size ≥ 1` bytes. -/
def extractFrames (size : Nat) : Nat → List (List Nat) → List (List Nat) × List (List Nat)
  | 0, buf => ([], buf)
  | Nat.succ fuel, buf =>
    match extractChunk size buf with
    | (some frame, buf2) =>
      let res := extractFrames size fuel buf2
      (frame :: res.1, res.2)
    | (none, _) => ([], buf)

lemma getBufferSize_go : ∀ (l : List (List Nat)) (acc : Nat),
    l.foldl (fun total chunk => total + chunk.length) acc = acc + (l.map List.length).sum
  | [], acc => by simp
  | c :: rest, acc => by
      simp only [List.foldl_cons, List.map_cons, List.sum_cons]
      rw [getBufferSize_go rest]
      omega

lemma getBufferSize_eq (buf : List (List Nat)) : getBufferSize buf = buf.flatten.length := by
  rw [getBufferSize, getBufferSize_go, List.length_flatten]
  simp

lemma chunksNeeded_eq_none (size : Nat) : ∀ (buf : List (List Nat)) (acc : Nat),
    acc + buf.flatten.length < size → chunksNeeded size buf acc = none
  | [], _, _ => rfl
  | c :: rest, acc, h => by
      have hjoin : ((c :: rest).flatten).length = c.length + rest.flatten.length := by simp
      have h1 : ¬ size ≤ acc + c.length := by omega
      have h2 : chunksNeeded size rest (acc + c.length) = none :=
        chunksNeeded_eq_none size rest (acc + c.length) (by omega)
      simp [chunksNeeded, h1, h2]

lemma chunksNeeded_isSome (size : Nat) : ∀ (buf : List (List Nat)) (acc : Nat),
    acc < size → size ≤ acc + buf.flatten.length → (chunksNeeded size buf acc).isSome = true
  | [], acc, hlt, hle => by simp at hle; omega
  | c :: rest, acc, hlt, hle => by
      by_cases h1 : size ≤ acc + c.length
      · simp [chunksNeeded, h1]
      · have hjoin : ((c :: rest).flatten).length = c.length + rest.flatten.length := by simp
        have ih := chunksNeeded_isSome size rest (acc + c.length) (by omega) (by omega)
        rcases h2 : chunksNeeded size rest (acc + c.length) with _ | k
        · rw [h2] at ih; simp at ih
        · simp [chunksNeeded, h1, h2]

lemma chunksNeeded_spec (size : Nat) : ∀ (buf : List (List Nat)) (acc k : Nat),
    chunksNeeded size buf acc = some k →
      k ≤ buf.length ∧ size ≤ acc + ((buf.take k).flatten).length
  | [], _, _, h => by simp [chunksNeeded] at h
  | c :: rest, acc, k, h => by
      by_cases h1 : size ≤ acc + c.length
      · simp [chunksNeeded, h1] at h
        subst h
        simp
        omega
      · rcases h2 : chunksNeeded size rest (acc + c.length) with _ | k'
        · simp [chunksNeeded, h1, h2] at h
        · simp [chunksNeeded, h1, h2] at h
          obtain ⟨hk', hsz⟩ := chunksNeeded_spec size rest (acc + c.length) k' h2
          subst h
          constructor
          · simpa using Nat.succ_le_succ hk'
          · simpa [Nat.add_assoc] using hsz

lemma extractChunk_of_lt (size : Nat) (buf : List (List Nat))
    (h : buf.flatten.length < size) : extractChunk size buf = (none, buf) := by
  have hc := chunksNeeded_eq_none size buf 0 (by omega)
  simp [extractChunk, hc]

lemma extractChunk_none_lt (size : Nat) (buf : List (List Nat)) (hsize : 0 < size)
    (h : (extractChunk size buf).1 = none) : buf.flatten.length < size := by
  by_contra hge
  have hsome := chunksNeeded_isSome size buf 0 hsize (by omega)
  rcases hc : chunksNeeded size buf 0 with _ | k
  · rw [hc] at hsome; simp at hsome
  · simp only [extractChunk, hc] at h
    split at h <;> simp at h

lemma extractChunk_some (size : Nat) (buf : List (List Nat))
    (frame : List Nat) (buf' : List (List Nat))
    (h : extractChunk size buf = (some frame, buf')) :
    frame.length = size ∧ frame ++ buf'.flatten = buf.flatten := by
  rw [extractChunk] at h
  rcases hc : chunksNeeded size buf 0 with _ | k
  · rw [hc] at h; simp at h
  · rw [hc] at h
    obtain ⟨hk, hsz⟩ := chunksNeeded_spec size buf 0 k hc
    simp only [Nat.zero_add] at hsz
    by_cases hlt : size < ((buf.take k).flatten).length
    · simp only [hlt, if_true, Prod.mk.injEq, Option.some.injEq] at h
      obtain ⟨h1, h2⟩ := h
      subst h1
      subst h2
      refine ⟨by rw [List.length_take]; omega, ?_⟩
      rw [List.flatten_cons, ← List.append_assoc, List.take_append_drop]
      rw [← List.flatten_append, List.take_append_drop]
    · simp only [hlt, if_false, Prod.mk.injEq, Option.some.injEq] at h
      obtain ⟨h1, h2⟩ := h
      subst h1
      subst h2
      refine ⟨by omega, ?_⟩
      rw [← List.flatten_append, List.take_append_drop]

lemma extractFrames_join (size : Nat) : ∀ (fuel : Nat) (buf : List (List Nat)),
    (extractFrames size fuel buf).1.flatten ++ (extractFrames size fuel buf).2.flatten = buf.flatten ∧
      ∀ f ∈ (extractFrames size fuel buf).1, f.length = size
  | 0, buf => by simp [extractFrames]
  | Nat.succ fuel, buf => by
      rcases h : extractChunk size buf with ⟨_ | frame, buf2⟩
      · simp [extractFrames, h]
      · obtain ⟨hlen, hjoin⟩ := extractChunk_some size buf frame buf2 h
        obtain ⟨ih1, ih2⟩ := extractFrames_join size fuel buf2
        constructor
        · simp only [extractFrames, h, List.flatten_cons]
          rw [List.append_assoc, ih1, hjoin]
        · intro f hf
          simp only [extractFrames, h, List.mem_cons] at hf
          rcases hf with rfl | hf
          · exact hlen
          · exact ih2 f hf

lemma extractFrames_rest (size : Nat) (hsize : 0 < size) :
    ∀ (fuel : Nat) (buf : List (List Nat)), buf.flatten.length ≤ fuel →
      (extractFrames size fuel buf).2.flatten.length < size
  | 0, buf, h => by
      simp only [extractFrames]
      omega
  | Nat.succ fuel, buf, h => by
      rcases hc : extractChunk size buf with ⟨_ | frame, buf2⟩
      · simp only [extractFrames, hc]
        exact extractChunk_none_lt size buf hsize (by rw [hc])
      · obtain ⟨hlen, hjoin⟩ := extractChunk_some size buf frame buf2 hc
        have hlen2 : buf2.flatten.length ≤ fuel := by
          have hsum : frame.length + buf2.flatten.length = buf.flatten.length := by
            rw [← hjoin]; simp
          omega
        simp only [extractFrames, hc]
        exact extractFrames_rest size hsize fuel buf2 hlen2

/-- C1: for every sequence of appended fragments whose total byte length is at
least `size`, draining the frame buffer by repeated `extractChunk size` calls
yields frames of exactly `size` bytes whose in-order concatenation equals the
concatenation of all appended fragments up to a final remainder shorter than
`size`; and when the cumulative buffered length is below `size`, `extractChunk`
returns `none` and leaves the buffer unchanged. -/
theorem frameBuffer_extraction_correct (size : Nat) (hsize : 0 < size)
    (fragments : List (List Nat)) :
    (∀ f ∈ (extractFrames size (getBufferSize fragments) fragments).1, f.length = size) ∧
    (extractFrames size (getBufferSize fragments) fragments).1.flatten ++
      (extractFrames size (getBufferSize fragments) fragments).2.flatten = fragments.flatten ∧
    (extractFrames size (getBufferSize fragments) fragments).2.flatten.length < size ∧
    (getBufferSize fragments < size → extractChunk size fragments = (none, fragments)) := by
  obtain ⟨h1, h2⟩ := extractFrames_join size (getBufferSize fragments) fragments
  refine ⟨h2, h1, ?_, ?_⟩
  · exact extractFrames_rest size hsize _ fragments (le_of_eq (getBufferSize_eq fragments).symm)
  · intro hlt
    exact extractChunk_of_lt size fragments (by rw [← getBufferSize_eq]; exact hlt)

/-- Witness for C1 at `size = 3` with fragments `[[1,2],[3,4,5]]`. -/
theorem frameBuffer_extraction_witness :
    0 < 3 ∧
    ((∀ f ∈ (extractFrames 3 (getBufferSize [[1,2],[3,4,5]]) [[1,2],[3,4,5]]).1, f.length = 3) ∧
     (extractFrames 3 (getBufferSize [[1,2],[3,4,5]]) [[1,2],[3,4,5]]).1.flatten ++
       (extractFrames 3 (getBufferSize [[1,2],[3,4,5]]) [[1,2],[3,4,5]]).2.flatten =
         ([[1,2],[3,4,5]] : List (List Nat)).flatten ∧
     (extractFrames 3 (getBufferSize [[1,2],[3,4,5]]) [[1,2],[3,4,5]]).2.flatten.length < 3 ∧
     (getBufferSize [[1,2],[3,4,5]] < 3 → extractChunk 3 [[1,2],[3,4,5]] = (none, [[1,2],[3,4,5]]))) :=
  ⟨by decide, frameBuffer_extraction_correct 3 (by decide) [[1,2],[3,4,5]]⟩

/-! ## Noise gate (`TwilioAudioProcessor.preprocessAudio`) -/

/-- Reading one 16-bit signed little-endian sample, as the `Int16Array` view
does: low byte first, values `≥ 0x8000` are negative. -/
def toInt16 (lo hi : Nat) : Int :=
  if lo + 256 * hi < 32768 then ((lo + 256 * hi : Nat) : Int)
  else ((lo + 256 * hi : Nat) : Int) - 65536

/-- The byte buffer viewed as 16-bit signed little-endian samples
(`new Int16Array(audioBuffer.buffer, audioBuffer.byteOffset, audioBuffer.length / 2)`). -/
def bytesToSamples : List Nat → List Int
  | lo :: hi :: rest => toInt16 lo hi :: bytesToSamples rest
  | _ => []

/-- Writing one sample back as two little-endian bytes
(the `Buffer.from(processedSamples.buffer)` view). -/
def sampleToBytes (s : Int) : List Nat :=
  [(s % 65536).toNat % 256, (s % 65536).toNat / 256]

def samplesToBytes : List Int → List Nat
  | [] => []
  | s :: rest => sampleToBytes s ++ samplesToBytes rest

/-- JavaScript `amplitude > gateThreshold` where `gateThreshold` may be `NaN`
(modelled as `none`): a comparison against `NaN` is `false`. -/
def jsGtQ (amplitude : Nat) : Option ℚ → Bool
  | none => false
  | some q => decide (q < (amplitude : ℚ))

/-- The first loop of `preprocessAudio`: maximum absolute sample value,
starting from `0`. -/
def maxAmplitude (samples : List Int) : Nat :=
  samples.foldl (fun m s => max m s.natAbs) 0

/-- Embeds `preprocessAudio(audioBuffer)` (the noise gate). The view
`new Int16Array(audioBuffer.buffer, audioBuffer.byteOffset, audioBuffer.length / 2)`
does not throw on an odd byte length: the fractional length argument is
truncated by `ToIndex` (via `ToIntegerOrInfinity`), and the byte offset of a
pooled Node `Buffer` is 8-aligned so the alignment check cannot throw either.
The gate therefore always views `⌊length / 2⌋` samples, silently dropping a
trailing odd byte (`bytesToSamples` does the same), and the `catch` fallback
is unreachable in this byte-level model. Then: compute the peak amplitude,
the dynamic threshold `Math.max(maxAmplitude * threshold, 100)` (`none`,
i.e. `NaN`, when `config.noiseThreshold` is `undefined`), zero every sample
not strictly above it, and return empty when no sample passed; otherwise
`Buffer.from(processedSamples.buffer)` has `2 * ⌊length / 2⌋` bytes. -/
def preprocessAudioBuffer (noiseThreshold : Option ℚ) (audioBuffer : List Nat) : List Nat :=
  let samples := bytesToSamples audioBuffer
  let gateThreshold : Option ℚ :=
    noiseThreshold.map (fun t => max ((maxAmplitude samples : ℚ) * t) 100)
  let processedSamples := samples.map (fun s => if jsGtQ s.natAbs gateThreshold then s else 0)
  let hasSignificant := samples.any (fun s => jsGtQ s.natAbs gateThreshold)
  if hasSignificant then samplesToBytes processedSamples else []

/-- All bytes of a frame are in range (a `Buffer` holds octets). -/
def isByteFrame (frame : List Nat) : Prop := ∀ b ∈ frame, b < 256

instance (frame : List Nat) : Decidable (isByteFrame frame) := by
  unfold isByteFrame; infer_instance

lemma length_bytesToSamples : ∀ l : List Nat, (bytesToSamples l).length = l.length / 2
  | [] => by simp [bytesToSamples]
  | [_] => by simp [bytesToSamples]
  | lo :: hi :: rest => by
      simp only [bytesToSamples, List.length_cons]
      rw [length_bytesToSamples rest]
      omega

lemma length_samplesToBytes : ∀ l : List Int, (samplesToBytes l).length = 2 * l.length
  | [] => by simp [samplesToBytes]
  | s :: rest => by
      simp only [samplesToBytes, sampleToBytes, List.length_append, List.length_cons]
      rw [length_samplesToBytes rest]
      simp
      omega

lemma toInt16_range (lo hi : Nat) (hlo : lo < 256) (hhi : hi < 256) :
    -32768 ≤ toInt16 lo hi ∧ toInt16 lo hi < 32768 := by
  unfold toInt16
  split <;> omega

lemma bytesToSamples_range : ∀ l : List Nat, isByteFrame l →
    ∀ s ∈ bytesToSamples l, -32768 ≤ s ∧ s < 32768
  | [], _, s, hs => by simp [bytesToSamples] at hs
  | [x], _, s, hs => by simp [bytesToSamples] at hs
  | lo :: hi :: rest, h, s, hs => by
      simp only [bytesToSamples, List.mem_cons] at hs
      rcases hs with rfl | hs
      · exact toInt16_range lo hi (h lo (by simp)) (h hi (by simp))
      · exact bytesToSamples_range rest (fun b hb => h b (by simp [hb])) s hs

lemma bytesToSamples_sampleToBytes (s : Int) (h1 : -32768 ≤ s) (h2 : s < 32768) :
    ∀ tail : List Nat, bytesToSamples (sampleToBytes s ++ tail) = s :: bytesToSamples tail := by
  intro tail
  simp only [sampleToBytes, List.cons_append, List.nil_append, bytesToSamples]
  have hv : ((s % 65536).toNat % 256) + 256 * ((s % 65536).toNat / 256) = (s % 65536).toNat := by
    omega
  have hhead : toInt16 ((s % 65536).toNat % 256) ((s % 65536).toNat / 256) = s := by
    unfold toInt16
    rw [hv]
    split <;> omega
  rw [hhead]
  simp

lemma bytesToSamples_samplesToBytes : ∀ l : List Int,
    (∀ s ∈ l, -32768 ≤ s ∧ s < 32768) → bytesToSamples (samplesToBytes l) = l
  | [], _ => rfl
  | s :: rest, h => by
      have hs := h s (by simp)
      rw [samplesToBytes, bytesToSamples_sampleToBytes s hs.1 hs.2,
          bytesToSamples_samplesToBytes rest (fun x hx => h x (by simp [hx]))]

lemma samplesToBytes_ne_nil (l : List Int) (h : l ≠ []) : samplesToBytes l ≠ [] := by
  cases l with
  | nil => exact absurd rfl h
  | cons s rest => simp [samplesToBytes, sampleToBytes]

lemma foldl_max_le_acc : ∀ (l : List Int) (acc : Nat),
    acc ≤ l.foldl (fun m s => max m s.natAbs) acc
  | [], _ => le_refl _
  | c :: rest, acc =>
      le_trans (Nat.le_max_left acc c.natAbs) (foldl_max_le_acc rest (max acc c.natAbs))

lemma foldl_max_ge_mem : ∀ (l : List Int) (acc : Nat),
    ∀ s ∈ l, s.natAbs ≤ l.foldl (fun m s => max m s.natAbs) acc
  | c :: rest, acc, s, hs => by
      rcases List.mem_cons.mp hs with rfl | hmem
      · exact le_trans (Nat.le_max_right acc s.natAbs) (foldl_max_le_acc rest _)
      · exact foldl_max_ge_mem rest (max acc c.natAbs) s hmem

lemma foldl_max_mem : ∀ (l : List Int) (acc : Nat),
    l.foldl (fun m s => max m s.natAbs) acc = acc ∨
      l.foldl (fun m s => max m s.natAbs) acc ∈ l.map Int.natAbs
  | [], acc => Or.inl rfl
  | c :: rest, acc => by
      rcases foldl_max_mem rest (max acc c.natAbs) with h | h
      · rcases max_choice acc c.natAbs with hm | hm
        · exact Or.inl (by simp only [List.foldl_cons]; rw [h, hm])
        · refine Or.inr ?_
          simp only [List.foldl_cons, List.map_cons, List.mem_cons]
          exact Or.inl (by rw [h, hm])
      · refine Or.inr ?_
        simp only [List.foldl_cons, List.map_cons, List.mem_cons]
        exact Or.inr h

lemma bytesToSamples_all_zero : ∀ l : List Nat, (∀ b ∈ l, b = 0) →
    ∀ s ∈ bytesToSamples l, s = 0
  | [], _, s, hs => by simp [bytesToSamples] at hs
  | [x], _, s, hs => by simp [bytesToSamples] at hs
  | lo :: hi :: rest, h, s, hs => by
      have hlo : lo = 0 := h lo (by simp)
      have hhi : hi = 0 := h hi (by simp)
      simp only [bytesToSamples, List.mem_cons] at hs
      rcases hs with rfl | hs
      · subst hlo; subst hhi; simp [toInt16]
      · exact bytesToSamples_all_zero rest (fun b hb => h b (by simp [hb])) s hs

lemma preprocessAudioBuffer_unfold (t : ℚ) (frame : List Nat) :
    preprocessAudioBuffer (some t) frame =
      if (bytesToSamples frame).any (fun s =>
          decide ((max ((maxAmplitude (bytesToSamples frame) : ℚ) * t) 100) < (s.natAbs : ℚ)))
      then samplesToBytes ((bytesToSamples frame).map (fun s =>
          if (max ((maxAmplitude (bytesToSamples frame) : ℚ) * t) 100) < (s.natAbs : ℚ)
          then s else 0))
      else [] := by
  simp only [preprocessAudioBuffer, jsGtQ, Option.map_some', decide_eq_true_eq]

/-- C2: on an even-length byte frame with `noiseThreshold` configured to the
fraction `t` (the hard-coded absolute floor is `100`), the gate output is
empty exactly when no sample's absolute value strictly exceeds
`max(maxAmplitude * t, 100)`; when it is non-empty, its samples are the input
samples with every sample not strictly above the threshold zeroed and every
sample above it kept unchanged; `maxAmplitude` is the maximum absolute sample
value of that same frame; and an all-zero frame always yields empty output. -/
theorem noiseGate_gating_correct (t : ℚ) (frame : List Nat)
    (hb : isByteFrame frame) (he : frame.length % 2 = 0) :
    (preprocessAudioBuffer (some t) frame = [] ↔
      ∀ s ∈ bytesToSamples frame,
        ¬ (max ((maxAmplitude (bytesToSamples frame) : ℚ) * t) 100 < (s.natAbs : ℚ))) ∧
    (preprocessAudioBuffer (some t) frame ≠ [] →
      bytesToSamples (preprocessAudioBuffer (some t) frame) =
        (bytesToSamples frame).map (fun s =>
          if max ((maxAmplitude (bytesToSamples frame) : ℚ) * t) 100 < (s.natAbs : ℚ)
          then s else 0)) ∧
    (∀ s ∈ bytesToSamples frame, s.natAbs ≤ maxAmplitude (bytesToSamples frame)) ∧
    (bytesToSamples frame ≠ [] →
      maxAmplitude (bytesToSamples frame) ∈ (bytesToSamples frame).map Int.natAbs) ∧
    ((∀ b ∈ frame, b = 0) → preprocessAudioBuffer (some t) frame = []) := by
  have hunfold := preprocessAudioBuffer_unfold t frame
  refine ⟨?_, ?_, ?_, ?_, ?_⟩
  · rw [hunfold]
    rcases hany : (bytesToSamples frame).any (fun s =>
        decide ((max ((maxAmplitude (bytesToSamples frame) : ℚ) * t) 100) < (s.natAbs : ℚ))) with _ | _
    · rw [if_neg Bool.false_ne_true]
      rw [List.any_eq_false] at hany
      constructor
      · intro _ s hs
        have hp := hany s hs
        simpa using hp
      · intro _
        rfl
    · rw [if_pos rfl]
      rw [List.any_eq_true] at hany
      obtain ⟨s0, hs0, hpred⟩ := hany
      constructor
      · intro hempty
        refine absurd hempty (samplesToBytes_ne_nil _ ?_)
        intro hnil
        have hsampnil : bytesToSamples frame = [] := by simpa using hnil
        rw [hsampnil] at hs0
        simp at hs0
      · intro hall
        exact absurd (of_decide_eq_true hpred) (hall s0 hs0)
  · rw [hunfold]
    rcases hany : (bytesToSamples frame).any (fun s =>
        decide ((max ((maxAmplitude (bytesToSamples frame) : ℚ) * t) 100) < (s.natAbs : ℚ))) with _ | _
    · rw [if_neg Bool.false_ne_true]
      intro hne
      simp at hne
    · rw [if_pos rfl]
      intro _
      apply bytesToSamples_samplesToBytes
      intro s hs
      rw [List.mem_map] at hs
      obtain ⟨s', hs', rfl⟩ := hs
      have hrange := bytesToSamples_range frame hb s' hs'
      split
      · exact hrange
      · exact ⟨by omega, by omega⟩
  · exact fun s hs => foldl_max_ge_mem (bytesToSamples frame) 0 s hs
  · intro hne
    rcases foldl_max_mem (bytesToSamples frame) 0 with h | h
    · obtain ⟨s0, hmem0⟩ := List.exists_mem_of_ne_nil (bytesToSamples frame) hne
      have hle : s0.natAbs ≤ maxAmplitude (bytesToSamples frame) :=
        foldl_max_ge_mem (bytesToSamples frame) 0 s0 hmem0
      have hzero : maxAmplitude (bytesToSamples frame) = 0 := h
      have heq : maxAmplitude (bytesToSamples frame) = s0.natAbs := by omega
      rw [heq]
      exact List.mem_map_of_mem Int.natAbs hmem0
    · exact h
  · intro hzero
    rw [hunfold]
    have hany : (bytesToSamples frame).any (fun s =>
        decide ((max ((maxAmplitude (bytesToSamples frame) : ℚ) * t) 100) < (s.natAbs : ℚ))) = false := by
      rw [List.any_eq_false]
      intro s hs
      have hs0 : s = 0 := bytesToSamples_all_zero frame hzero s hs
      subst hs0
      simp only [decide_eq_true_eq, Int.natAbs_zero, Nat.cast_zero, not_lt]
      exact le_trans (by norm_num) (le_max_right _ 100)
    rw [hany, if_neg Bool.false_ne_true]

/-- Witness for C2 at threshold fraction 1/200 (0.005) and the frame
`[0, 2, 0, 0]`, i.e. the samples `[512, 0]`. -/
theorem noiseGate_gating_witness :
    isByteFrame [0, 2, 0, 0] ∧ ([0, 2, 0, 0] : List Nat).length % 2 = 0 ∧
    ((preprocessAudioBuffer (some (1/200)) [0, 2, 0, 0] = [] ↔
      ∀ s ∈ bytesToSamples [0, 2, 0, 0],
        ¬ (max ((maxAmplitude (bytesToSamples [0, 2, 0, 0]) : ℚ) * (1/200)) 100 < (s.natAbs : ℚ))) ∧
     (preprocessAudioBuffer (some (1/200)) [0, 2, 0, 0] ≠ [] →
      bytesToSamples (preprocessAudioBuffer (some (1/200)) [0, 2, 0, 0]) =
        (bytesToSamples [0, 2, 0, 0]).map (fun s =>
          if max ((maxAmplitude (bytesToSamples [0, 2, 0, 0]) : ℚ) * (1/200)) 100 < (s.natAbs : ℚ)
          then s else 0)) ∧
     (∀ s ∈ bytesToSamples [0, 2, 0, 0], s.natAbs ≤ maxAmplitude (bytesToSamples [0, 2, 0, 0])) ∧
     (bytesToSamples [0, 2, 0, 0] ≠ [] →
      maxAmplitude (bytesToSamples [0, 2, 0, 0]) ∈ (bytesToSamples [0, 2, 0, 0]).map Int.natAbs) ∧
     ((∀ b ∈ ([0, 2, 0, 0] : List Nat), b = 0) → preprocessAudioBuffer (some (1/200)) [0, 2, 0, 0] = [])) :=
  ⟨by decide, by decide, noiseGate_gating_correct (1/200) [0, 2, 0, 0] (by decide) (by decide)⟩

lemma bytesToSamples_take_even : ∀ l : List Nat, l.length % 2 = 1 →
    bytesToSamples (l.take (l.length - 1)) = bytesToSamples l
  | [], h => by simp at h
  | [x], _ => by simp [bytesToSamples]
  | lo :: hi :: rest, h => by
      have hodd : rest.length % 2 = 1 := by
        simp only [List.length_cons] at h
        omega
      have hpos : 1 ≤ rest.length := by omega
      have htake : (lo :: hi :: rest).take ((lo :: hi :: rest).length - 1) =
          lo :: hi :: rest.take (rest.length - 1) := by
        simp only [List.length_cons]
        rw [show rest.length + 1 + 1 - 1 = (rest.length - 1) + 1 + 1 by omega]
        simp [List.take_succ_cons]
      rw [htake]
      simp only [bytesToSamples]
      rw [bytesToSamples_take_even rest hodd]

/-- Evaluates the gate on the odd-length frame `[1, 2, 3]` at threshold
fraction 1/200: the view holds the single sample `0x0201 = 513`, which passes
`max(513 * 1/200, 100) = 100`, so the output is the 2-byte buffer `[1, 2]`. -/
lemma preprocessAudioBuffer_odd_eval :
    preprocessAudioBuffer (some (1/200)) [1, 2, 3] = [1, 2] := by
  have hsamp : bytesToSamples [1, 2, 3] = [513] := by decide
  have hamp : maxAmplitude [513] = 513 := by decide
  rw [preprocessAudioBuffer_unfold, hsamp, hamp]
  simp only [List.any_cons, List.any_nil, Bool.or_false, List.map_cons, List.map_nil]
  have hnat : (513 : Int).natAbs = (513 : Nat) := by decide
  rw [hnat]
  have hprop : max (((513 : Nat) : ℚ) * (1 / 200)) 100 < ((513 : Nat) : ℚ) := by
    refine max_lt ?_ ?_ <;> norm_num
  rw [decide_eq_true hprop, if_pos rfl, if_pos hprop]
  decide

/-- C8 counterexample: the odd-length frame `[1, 2, 3]` is not a processing
failure — `ToIndex` truncates the fractional `Int16Array` length instead of
throwing — so the gate does not return the original frame: its single sample
`0x0201 = 513` passes the threshold `max(513 * 1/200, 100) = 100` and the
output is the 2-byte buffer `[1, 2]`, not `[1, 2, 3]`. -/
theorem noiseGate_odd_counterexample :
    preprocessAudioBuffer (some (1/200)) [1, 2, 3] = [1, 2] ∧
    preprocessAudioBuffer (some (1/200)) [1, 2, 3] ≠ [1, 2, 3] := by
  refine ⟨preprocessAudioBuffer_odd_eval, ?_⟩
  rw [preprocessAudioBuffer_odd_eval]
  decide

/-- C8 (amended): an odd byte length is not a noise-gate processing failure:
the `Int16Array` view truncates the fractional length, so the gate processes
an odd-length frame exactly as it processes the frame's first `length - 1`
bytes — the trailing byte is silently dropped and the original frame is
never returned; the `catch` fallback that would return the original frame is
unreachable on this input. -/
theorem noiseGate_odd_truncation (noiseThreshold : Option ℚ) (frame : List Nat)
    (h : frame.length % 2 = 1) :
    preprocessAudioBuffer noiseThreshold frame =
      preprocessAudioBuffer noiseThreshold (frame.take (frame.length - 1)) := by
  simp only [preprocessAudioBuffer, bytesToSamples_take_even frame h]

/-- Witness for C8 (amended) on the 3-byte frame `[1, 2, 3]`. -/
theorem noiseGate_odd_truncation_witness :
    ([1, 2, 3] : List Nat).length % 2 = 1 ∧
    preprocessAudioBuffer (some (1/200)) [1, 2, 3] =
      preprocessAudioBuffer (some (1/200)) (([1, 2, 3] : List Nat).take (([1, 2, 3] : List Nat).length - 1)) :=
  ⟨by decide, noiseGate_odd_truncation (some (1/200)) [1, 2, 3] (by decide)⟩

/-- C9 counterexample: on the odd-length frame `[1, 2, 3]` (threshold 1/200)
the gate outputs 2 bytes — neither 0 nor the input length 3 — because the
`Int16Array` view truncates to one sample and that sample passes the gate. -/
theorem noiseGate_length_counterexample :
    ¬ ((preprocessAudioBuffer (some (1/200)) [1, 2, 3]).length = 0 ∨
       (preprocessAudioBuffer (some (1/200)) [1, 2, 3]).length = ([1, 2, 3] : List Nat).length) := by
  rw [preprocessAudioBuffer_odd_eval]
  decide

/-- C9 (amended): for every input frame and every configured threshold
(including the `undefined` one), the noise-gate output byte length is either
0 or exactly `2 * ⌊length / 2⌋` — the input length rounded down to a whole
number of 16-bit samples: the full length for even frames, `length - 1` for
odd frames. -/
theorem noiseGate_length_invariant (noiseThreshold : Option ℚ) (frame : List Nat) :
    (preprocessAudioBuffer noiseThreshold frame).length = 0 ∨
    (preprocessAudioBuffer noiseThreshold frame).length = 2 * (frame.length / 2) := by
  simp only [preprocessAudioBuffer]
  split
  · right
    rw [length_samplesToBytes, List.length_map, length_bytesToSamples]
  · left
    rfl

/-! ## Session state (`TwilioAudioProcessor` message handling) -/

/-- The `TwilioAudioProcessorConfig` interface. The Connection Supervisor
constructs the processor with an object literal that only provides
`bufferSize`, so at run time the other two fields read as `undefined`;
each field is therefore modelled as an `Option`. -/
structure TwilioAudioProcessorConfig where
  bufferSize : Option Nat
  minChunkSize : Option Nat
  noiseThreshold : Option ℚ
deriving DecidableEq

/-- `data.media` of a Twilio `media` event, with `payload` already
base64-decoded to bytes (`Buffer.from(data.media.payload, 'base64')`). -/
structure MediaPayload where
  payload : List Nat
  track : String
deriving DecidableEq

/-- A parsed Twilio protocol message. `startStreamSid` stands for the
JavaScript access `data.start?.streamSid` (`none` when either `start` or
`streamSid` is absent). -/
structure TwilioEventData where
  event : String
  startStreamSid : Option String
  media : Option MediaPayload
deriving DecidableEq

/-- Mutable fields of `TwilioAudioProcessor`, plus `sentAudio`: the audio
frames passed to `deepgramConnection.send` on the inbound path (in order).
`isProcessing` is the source's `isProcessingAudio` re-entrancy flag. -/
structure ProcessorState where
  inBuffer : List (List Nat)
  hasSeenMedia : Bool
  messageCount : Nat
  isProcessing : Bool
  streamSid : Option String
  sentAudio : List (List Nat)
deriving DecidableEq

/-- The constructor-initialised state. -/
def initialProcessorState : ProcessorState :=
  { inBuffer := [], hasSeenMedia := false, messageCount := 0, isProcessing := false,
    streamSid := none, sentAudio := [] }

/-- JavaScript `n > m` where `m` may be `undefined` (`none`): `false` then. -/
def jsGtNat (n : Nat) : Option Nat → Bool
  | none => false
  | some m => decide (m < n)

/-- Embeds `isValidAudioChunk`: at least 20 bytes and some non-zero byte
among the first 100. -/
def isValidAudioChunk (audioChunk : List Nat) : Bool :=
  if audioChunk.length < 20 then false
  else (audioChunk.take 100).any (fun b => b != 0)

/-- Embeds `resetState`. -/
def resetState (s : ProcessorState) : ProcessorState :=
  { s with
    hasSeenMedia := false, messageCount := 0, isProcessing := false,
    streamSid := none, inBuffer := [] }

/-- The `while (this.getBufferSize() >= this.config.bufferSize)` drain loop of
`handleMediaEvent`: extract a chunk, run the noise gate, and send non-empty
results when the speech peer is ready. When `bufferSize` is `undefined` the
`>=` comparison is `false` and the loop never runs. `fuel` bounds the
iterations (the caller passes the current buffered byte count, which is
enough whenever `bufferSize ≥ 1`). -/
def processBufferLoop (config : TwilioAudioProcessorConfig) (ready : Bool) :
    Nat → ProcessorState → ProcessorState
  | 0, s => s
  | Nat.succ fuel, s =>
    match config.bufferSize with
    | none => s
    | some bsz =>
      if bsz ≤ getBufferSize s.inBuffer then
        match extractChunk bsz s.inBuffer with
        | (some chunk, buf2) =>
          let processedChunk := preprocessAudioBuffer config.noiseThreshold chunk
          let s2 := { s with inBuffer := buf2 }
          let s3 := if 0 < processedChunk.length ∧ ready = true
                    then { s2 with sentAudio := s2.sentAudio ++ [processedChunk] }
                    else s2
          processBufferLoop config ready fuel s3
        | (none, buf2) => processBufferLoop config ready fuel { s with inBuffer := buf2 }
      else s

/-- Embeds `handleMediaEvent`. The source sets `isProcessingAudio` before the
`try` block and clears it in `finally`; in this sequential model the flag is
back to its entry value on return, so only the guard on it is visible. -/
def handleMediaEvent (config : TwilioAudioProcessorConfig) (ready : Bool)
    (data : TwilioEventData) (s : ProcessorState) : ProcessorState :=
  let s1 := if s.hasSeenMedia = false then { s with hasSeenMedia := true } else s
  if (data.media.map MediaPayload.track == some "inbound") && !s1.isProcessing then
    match data.media with
    | none => s1
    | some m =>
      let audioChunk := m.payload
      if jsGtNat audioChunk.length config.minChunkSize then
        if isValidAudioChunk audioChunk then
          let s2 := { s1 with inBuffer := s1.inBuffer ++ [audioChunk] }
          processBufferLoop config ready (getBufferSize s2.inBuffer) s2
        else s1
      else s1
  else s1

/-- Embeds the `switch (data.event)` of `handleTwilioEvent`. Note the `start`
case assigns `data.start?.streamSid` unconditionally. -/
def handleTwilioEvent (config : TwilioAudioProcessorConfig) (ready : Bool)
    (data : TwilioEventData) (s : ProcessorState) : ProcessorState :=
  if data.event = "connected" then s
  else if data.event = "start" then { s with streamSid := data.startStreamSid }
  else if data.event = "media" then handleMediaEvent config ready data s
  else if data.event = "stop" then resetState s
  else s

/-- A WebSocket message as seen by `processMessage`: a parsed utf8 text
message, or a binary message (ignored by the source). -/
inductive WsMessage where
  | utf8 (data : TwilioEventData)
  | binary
deriving DecidableEq

/-- Embeds `processMessage`: handle the event, then increment
`this.messageCount` (the increment happens after `handleTwilioEvent`
returns). `ready` is the speech-peer readiness
(`deepgramConnection.readyState === WebSocket.OPEN`). -/
def processMessage (config : TwilioAudioProcessorConfig) (ready : Bool)
    (msg : WsMessage) (s : ProcessorState) : ProcessorState :=
  match msg with
  | WsMessage.utf8 data =>
    let s1 := handleTwilioEvent config ready data s
    { s1 with messageCount := s1.messageCount + 1 }
  | WsMessage.binary => s

/-- The configuration object literal the Connection Supervisor actually
passes: `new TwilioAudioProcessor({ bufferSize: 20 * 160 })` — the
`minChunkSize` and `noiseThreshold` fields are left undefined. -/
def supervisorProcessorConfig : TwilioAudioProcessorConfig :=
  { bufferSize := some (20 * 160), minChunkSize := none, noiseThreshold := none }

/-- C3: with the configuration the Connection Supervisor actually passes
(`minChunkSize` undefined), the pre-filter comparison
`audioChunk.length > undefined` is false for every media fragment of every
length and every track, so no fragment is ever appended to the frame buffer
and no audio is ever forwarded to the speech peer on the inbound path. -/
theorem supervisor_config_drops_all_inbound (ready : Bool) (m : MediaPayload)
    (s : ProcessorState) :
    (processMessage supervisorProcessorConfig ready
        (WsMessage.utf8 { event := "media", startStreamSid := none, media := some m }) s).inBuffer
        = s.inBuffer ∧
    (processMessage supervisorProcessorConfig ready
        (WsMessage.utf8 { event := "media", startStreamSid := none, media := some m }) s).sentAudio
        = s.sentAudio := by
  simp [processMessage, handleTwilioEvent, handleMediaEvent, supervisorProcessorConfig, jsGtNat]
  split <;> simp

/-- C6 counterexample: processing a `stop` message from the (reachable)
initial state leaves `messageCount = 1`, not `0`: `resetState` zeroes the
counter, but `processMessage` increments it afterwards for the `stop`
message itself. -/
theorem stop_messageCount_counterexample :
    (processMessage supervisorProcessorConfig true
        (WsMessage.utf8 { event := "stop", startStreamSid := none, media := none })
        initialProcessorState).messageCount ≠ 0 := by decide

/-- C6 (amended): processing a `stop` event from any session state clears
`streamSid`, empties the buffer, and resets all processor fields, after which
`processMessage` increments the counter for the stop message itself — so the
post-state has `messageCount = 1` (not 0); previously sent audio is
unaffected. -/
theorem stop_resets_state (config : TwilioAudioProcessorConfig) (ready : Bool)
    (s : ProcessorState) :
    processMessage config ready
        (WsMessage.utf8 { event := "stop", startStreamSid := none, media := none }) s =
      { inBuffer := [], hasSeenMedia := false, messageCount := 1, isProcessing := false,
        streamSid := none, sentAudio := s.sentAudio } := by
  rfl

/-- C7 counterexample: from the reachable state produced by a `start` event
carrying `streamSid = "abc"`, a second `start` event whose payload carries no
`streamSid` does not preserve the stored value — it overwrites it with
`undefined`. -/
theorem start_missing_sid_counterexample :
    (processMessage supervisorProcessorConfig true
        (WsMessage.utf8 { event := "start", startStreamSid := none, media := none })
        (processMessage supervisorProcessorConfig true
          (WsMessage.utf8 { event := "start", startStreamSid := some "abc", media := none })
          initialProcessorState)).streamSid ≠
    (processMessage supervisorProcessorConfig true
        (WsMessage.utf8 { event := "start", startStreamSid := some "abc", media := none })
        initialProcessorState).streamSid := by decide

/-- C7 (amended): a `start` event whose payload carries no `streamSid` does
not leave the state unchanged: it unconditionally assigns
`data.start?.streamSid`, overwriting any previously stored stream id with
`undefined` (`none`), and the message counter is incremented; all other
fields are unchanged. -/
theorem start_missing_sid_overwrites (config : TwilioAudioProcessorConfig)
    (ready : Bool) (s : ProcessorState) :
    processMessage config ready
        (WsMessage.utf8 { event := "start", startStreamSid := none, media := none }) s =
      { s with streamSid := none, messageCount := s.messageCount + 1 } := by
  rfl

/-! ## JSON values, `JSON.stringify` and `JSON.parse`

`handleFunctionCallRequest` calls the host primitives `JSON.parse` and
`JSON.stringify`. They are modelled over a JSON value type; the parser covers
null/booleans/integers/escape-free strings/arrays/objects (no floats, string
escapes, or trailing-comma rejection), which is faithful on every literal
used below, and `JSON.parse` throwing is modelled as `none`. -/

inductive Json where
  | null
  | bool (b : Bool)
  | num (n : Int)
  | str (s : String)
  | arr (elems : List Json)
  | obj (fields : List (String × Json))

mutual
def stringify : Json → String
  | Json.null => "null"
  | Json.bool true => "true"
  | Json.bool false => "false"
  | Json.num n => toString n
  | Json.str s => "\"" ++ s ++ "\""
  | Json.arr elems => "[" ++ stringifyElems elems ++ "]"
  | Json.obj fields => "\x7b" ++ stringifyFields fields ++ "\x7d"

def stringifyElems : List Json → String
  | [] => ""
  | [v] => stringify v
  | v :: rest => stringify v ++ "," ++ stringifyElems rest

def stringifyFields : List (String × Json) → String
  | [] => ""
  | [(k, v)] => "\"" ++ k ++ "\":" ++ stringify v
  | (k, v) :: rest => "\"" ++ k ++ "\":" ++ stringify v ++ "," ++ stringifyFields rest
end

def lbraceChar : Char := Char.ofNat 123

def rbraceChar : Char := Char.ofNat 125

def isWsChar (c : Char) : Bool := c = ' ' || c = '\n' || c = '\t' || c = '\r'

def skipWs (cs : List Char) : List Char := cs.dropWhile isWsChar

def isDigitCh (c : Char) : Bool := '0' ≤ c && c ≤ '9'

def digitsToNat (ds : List Char) : Nat :=
  ds.foldl (fun n c => n * 10 + (c.toNat - 48)) 0

def parseNat (cs : List Char) : Option (Nat × List Char) :=
  let ds := cs.takeWhile isDigitCh
  if ds.isEmpty then none
  else some (digitsToNat ds, cs.dropWhile isDigitCh)

def parseStringBody (cs : List Char) : Option (String × List Char) :=
  let body := cs.takeWhile (fun c => c ≠ '"')
  match cs.dropWhile (fun c => c ≠ '"') with
  | _ :: rest => some (String.mk body, rest)
  | [] => none

mutual
def parseValue : Nat → List Char → Option (Json × List Char)
  | 0, _ => none
  | Nat.succ fuel, cs =>
    match skipWs cs with
    | [] => none
    | c :: rest =>
      if c = 'n' then
        match rest with
        | 'u' :: 'l' :: 'l' :: r => some (Json.null, r)
        | _ => none
      else if c = 't' then
        match rest with
        | 'r' :: 'u' :: 'e' :: r => some (Json.bool true, r)
        | _ => none
      else if c = 'f' then
        match rest with
        | 'a' :: 'l' :: 's' :: 'e' :: r => some (Json.bool false, r)
        | _ => none
      else if c = '-' then
        match parseNat rest with
        | some (n, r) => some (Json.num (-(n : Int)), r)
        | none => none
      else if isDigitCh c then
        match parseNat (c :: rest) with
        | some (n, r) => some (Json.num ((n : Int)), r)
        | none => none
      else if c = '"' then
        match parseStringBody rest with
        | some (s, r) => some (Json.str s, r)
        | none => none
      else if c = '[' then
        match parseElems fuel rest with
        | some (vs, r) => some (Json.arr vs, r)
        | none => none
      else if c = lbraceChar then
        match parseFields fuel rest with
        | some (fs, r) => some (Json.obj fs, r)
        | none => none
      else none

def parseElems : Nat → List Char → Option (List Json × List Char)
  | 0, _ => none
  | Nat.succ fuel, cs =>
    match skipWs cs with
    | [] => none
    | c :: rest =>
      if c = ']' then some ([], rest)
      else
        match parseValue fuel (c :: rest) with
        | none => none
        | some (v, r2) =>
          match skipWs r2 with
          | [] => none
          | c2 :: r3 =>
            if c2 = ',' then
              match parseElems fuel r3 with
              | some (vs, r4) => some (v :: vs, r4)
              | none => none
            else if c2 = ']' then some ([v], r3)
            else none

def parseFields : Nat → List Char → Option (List (String × Json) × List Char)
  | 0, _ => none
  | Nat.succ fuel, cs =>
    match skipWs cs with
    | [] => none
    | c :: rest =>
      if c = rbraceChar then some ([], rest)
      else if c = '"' then
        match parseStringBody rest with
        | none => none
        | some (key, r2) =>
          match skipWs r2 with
          | [] => none
          | c2 :: r3 =>
            if c2 = ':' then
              match parseValue fuel r3 with
              | none => none
              | some (v, r4) =>
                match skipWs r4 with
                | [] => none
                | c3 :: r5 =>
                  if c3 = ',' then
                    match parseFields fuel r5 with
                    | some (fs, r6) => some ((key, v) :: fs, r6)
                    | none => none
                  else if c3 = rbraceChar then some ([(key, v)], r5)
                  else none
            else none
      else none
end

/-- Models `JSON.parse`: parse one value and require only trailing whitespace;
`none` models the thrown `SyntaxError`. The fuel `2 * length + 2` strictly
exceeds the recursion depth any input of that length can produce. -/
def jsonParse (s : String) : Option Json :=
  match parseValue (2 * s.length + 2) s.toList with
  | some (v, rest) => if (skipWs rest).isEmpty then some v else none
  | none => none

/-! ## Function-call dispatch (`handleFunctionCallRequest`) -/

/-- An entry of `message.functions` (the `FunctionCall` interface). -/
structure FunctionCall where
  name : String
  id : String
  arguments : String
deriving DecidableEq

/-- The `FunctionCallResponse` interface. -/
structure FunctionCallResponse where
  type : String
  id : String
  name : String
  content : String
deriving DecidableEq

/-- Modelled from the spec: the dispatch table `FUNCTION_MAP`
(`src/config/function-map`) is not among the analysed sources; the spec
treats it as an opaque, externally supplied name-to-handler mapping, so it is
a parameter. A handler is a JavaScript function: it takes the decoded
arguments and either returns a value or throws (`Except.error` carries the
thrown value's string form). -/
def FunctionMap : Type := String → Option (Json → Except String Json)

/-- The synthesized result for an unregistered name:
`{ error: `Unknown function: $\x7bfuncName\x7d` }`. -/
def unknownFunctionResult (funcName : String) : Json :=
  Json.obj [("error", Json.str ("Unknown function: " ++ funcName))]

/-- One loop iteration up to `result`: `JSON.parse(functionCall.arguments)`
(throwing a `SyntaxError`, whose message is abstracted by a stand-in
constant), then either invoke the mapped handler (which may throw) or build
the unknown-function error object. -/
def callStep (functionMap : FunctionMap) (functionCall : FunctionCall) :
    Except String Json :=
  match jsonParse functionCall.arguments with
  | none => Except.error "SyntaxError: Unexpected token"
  | some args =>
    match functionMap functionCall.name with
    | some f => f args
    | none => Except.ok (unknownFunctionResult functionCall.name)

/-- The `functionResult` object sent for a successfully processed entry. -/
def mkFunctionCallResponse (functionCall : FunctionCall) (result : Json) :
    FunctionCallResponse :=
  { type := "FunctionCallResponse", id := functionCall.id, name := functionCall.name,
    content := stringify result }

/-- The `errorResult` built in the `catch` block, with placeholder
identifiers. -/
def batchErrorResponse (e : String) : FunctionCallResponse :=
  { type := "FunctionCallResponse", id := "unknown", name := "unknown",
    content := stringify (Json.obj [("error", Json.str ("Function call failed with: " ++ e))]) }

/-- Embeds `handleFunctionCallRequest`: iterate `message.functions`, sending
one response per entry. The `try`/`catch` wraps the whole loop, so the first
exception aborts the remaining entries and sends the single placeholder
error response. Returns the responses sent, in order. -/
def handleFunctionCallRequest (functionMap : FunctionMap) :
    List FunctionCall → List FunctionCallResponse
  | [] => []
  | functionCall :: rest =>
    match callStep functionMap functionCall with
    | Except.error e => [batchErrorResponse e]
    | Except.ok result =>
      mkFunctionCallResponse functionCall result :: handleFunctionCallRequest functionMap rest

/-- The response sent for an entry whose processing does not throw. -/
def responseFor (functionMap : FunctionMap) (functionCall : FunctionCall) :
    FunctionCallResponse :=
  match callStep functionMap functionCall with
  | Except.ok result => mkFunctionCallResponse functionCall result
  | Except.error e => batchErrorResponse e

def isOkB : Except String Json → Bool
  | Except.ok _ => true
  | Except.error _ => false

/-- All entries strictly before index `i` process without throwing. -/
def okUpTo (functionMap : FunctionMap) (calls : List FunctionCall) (i : Nat) : Prop :=
  ∀ g ∈ calls.take i, isOkB (callStep functionMap g) = true

instance (functionMap : FunctionMap) (calls : List FunctionCall) (i : Nat) :
    Decidable (okUpTo functionMap calls i) := by
  unfold okUpTo
  infer_instance

lemma responseFor_ok (functionMap : FunctionMap) (fc : FunctionCall) (r : Json)
    (h : callStep functionMap fc = Except.ok r) :
    responseFor functionMap fc = mkFunctionCallResponse fc r := by
  rw [responseFor, h]

lemma handleFCR_get_ok (functionMap : FunctionMap) :
    ∀ (calls : List FunctionCall) (i : Nat) (fc : FunctionCall),
      calls.get? i = some fc → okUpTo functionMap calls (i + 1) →
      ∃ r, callStep functionMap fc = Except.ok r ∧
        (handleFunctionCallRequest functionMap calls).get? i =
          some (mkFunctionCallResponse fc r)
  | [], i, fc, hget, _ => by simp at hget
  | c :: rest, i, fc, hget, hok => by
      have hc : isOkB (callStep functionMap c) = true :=
        hok c (by simp [List.take_succ_cons])
      rcases hstep : callStep functionMap c with e | r
      · rw [hstep] at hc; simp [isOkB] at hc
      · cases i with
        | zero =>
            have hfc : c = fc := by simpa using hget
            subst hfc
            exact ⟨r, hstep, by simp [handleFunctionCallRequest, hstep]⟩
        | succ i =>
            have hget' : rest.get? i = some fc := by simpa using hget
            have hok' : okUpTo functionMap rest (i + 1) := by
              intro g hg
              exact hok g (by simp [List.take_succ_cons, hg])
            obtain ⟨r', hr', hres⟩ := handleFCR_get_ok functionMap rest i fc hget' hok'
            refine ⟨r', hr', ?_⟩
            rw [List.get?_eq_getElem?] at hres
            simp [handleFunctionCallRequest, hstep, hres]

lemma handleFCR_fail (functionMap : FunctionMap) :
    ∀ (calls : List FunctionCall) (i : Nat) (fc : FunctionCall) (e : String),
      calls.get? i = some fc → okUpTo functionMap calls i →
      callStep functionMap fc = Except.error e →
      handleFunctionCallRequest functionMap calls =
        (calls.take i).map (responseFor functionMap) ++ [batchErrorResponse e]
  | [], i, fc, e, hget, _, _ => by simp at hget
  | c :: rest, i, fc, e, hget, hok, herr => by
      cases i with
      | zero =>
          have hfc : c = fc := by simpa using hget
          subst hfc
          simp [handleFunctionCallRequest, herr]
      | succ i =>
          have hc : isOkB (callStep functionMap c) = true :=
            hok c (by simp [List.take_succ_cons])
          rcases hstep : callStep functionMap c with e' | r
          · rw [hstep] at hc; simp [isOkB] at hc
          · have hget' : rest.get? i = some fc := by simpa using hget
            have hok' : okUpTo functionMap rest i := by
              intro g hg
              exact hok g (by simp [List.take_succ_cons, hg])
            have ih := handleFCR_fail functionMap rest i fc e hget' hok' herr
            simp only [handleFunctionCallRequest, hstep, ih, List.take_succ_cons,
              List.map_cons, List.cons_append]
            rw [responseFor_ok functionMap c r hstep]

/-- C4 counterexample: a request whose single entry has the unregistered name
"nope", id "7", and non-JSON arguments "x". `JSON.parse` throws before the
lookup, so the only emitted response carries the placeholder identifiers:
no response echoes id "7" or name "nope", refuting the claim for this entry. -/
theorem funcall_unknown_name_counterexample :
    handleFunctionCallRequest (fun _ => none)
        [{ name := "nope", id := "7", arguments := "x" }] =
      [batchErrorResponse "SyntaxError: Unexpected token"] ∧
    (handleFunctionCallRequest (fun _ => none)
        [{ name := "nope", id := "7", arguments := "x" }]).countP
        (fun r => r.id == "7" || r.name == "nope") = 0 :=
  ⟨rfl, rfl⟩

/-- C4 (amended): for a `FunctionCallRequest` entry whose name is not in the
dispatch table, *provided the entry's `arguments` parse as JSON and no entry
before it throws*, the handler emits at that entry's position exactly one
`FunctionCallResponse` whose content is the JSON encoding of an object with
an `error` key, with the entry's `id` and `name` echoed unchanged. -/
theorem funcall_unknown_name_amended (functionMap : FunctionMap)
    (calls : List FunctionCall) (i : Nat) (fc : FunctionCall)
    (hget : calls.get? i = some fc)
    (hname : functionMap fc.name = none)
    (hparse : (jsonParse fc.arguments).isSome = true)
    (hok : okUpTo functionMap calls i) :
    (handleFunctionCallRequest functionMap calls).get? i =
      some { type := "FunctionCallResponse", id := fc.id, name := fc.name,
             content := stringify (unknownFunctionResult fc.name) } := by
  have hstep : callStep functionMap fc = Except.ok (unknownFunctionResult fc.name) := by
    rcases hp : jsonParse fc.arguments with _ | a
    · rw [hp] at hparse; simp at hparse
    · simp [callStep, hp, hname]
  have hok1 : okUpTo functionMap calls (i + 1) := by
    intro g hg
    rw [List.take_succ] at hg
    have hget2 : calls[i]? = some fc := by rw [← List.get?_eq_getElem?]; exact hget
    rcases List.mem_append.mp hg with hg | hg
    · exact hok g hg
    · rw [hget2] at hg
      simp at hg
      subst hg
      rw [hstep]
      rfl
  obtain ⟨r, hr, hres⟩ := handleFCR_get_ok functionMap calls i fc hget hok1
  rw [hstep] at hr
  injection hr with hr
  subst hr
  exact hres

/-- Witness for C4 (amended): single-entry request, name "nope", id "7",
arguments "null", empty dispatch table. -/
theorem funcall_unknown_name_witness :
    (([{ name := "nope", id := "7", arguments := "null" }] : List FunctionCall).get? 0 =
      some { name := "nope", id := "7", arguments := "null" }) ∧
    (fun (_ : String) => (none : Option (Json → Except String Json))) "nope" = none ∧
    (jsonParse "null").isSome = true ∧
    okUpTo (fun _ => none) [{ name := "nope", id := "7", arguments := "null" }] 0 ∧
    (handleFunctionCallRequest (fun _ => none)
        [{ name := "nope", id := "7", arguments := "null" }]).get? 0 =
      some { type := "FunctionCallResponse", id := "7", name := "nope",
             content := stringify (unknownFunctionResult "nope") } :=
  ⟨rfl, rfl, rfl, by intro g hg; simp at hg,
   funcall_unknown_name_amended (fun _ => none)
     [{ name := "nope", id := "7", arguments := "null" }] 0
     { name := "nope", id := "7", arguments := "null" } rfl rfl rfl
     (by intro g hg; simp at hg)⟩

/-- A deployment-supplied handler that throws, for exercising the exception
path the claim quantifies over. -/
def boomFunctionMap : FunctionMap :=
  fun n => if n = "boom" then some (fun _ => Except.error "boom failed") else none

/-- C5 counterexample: a request whose single entry invokes a registered
handler that throws (name "boom", id "9"). The `catch` around the whole loop
sends one response with placeholder identifiers instead: no response echoes
id "9" or name "boom", refuting the claim for this entry. -/
theorem funcall_exception_echo_counterexample :
    handleFunctionCallRequest boomFunctionMap
        [{ name := "boom", id := "9", arguments := "null" }] =
      [batchErrorResponse "boom failed"] ∧
    (handleFunctionCallRequest boomFunctionMap
        [{ name := "boom", id := "9", arguments := "null" }]).countP
        (fun r => r.id == "9" || r.name == "boom") = 0 :=
  ⟨rfl, rfl⟩

/-- C5 (amended): provided every entry before index `i` processes without
throwing, the entry at `i` (a) receives, when its own processing returns a
result, exactly one response at its position echoing its `id` and `name` with
the JSON-encoded result as content, and (b) when its own processing throws
(arguments that fail to parse, or a throwing handler), the emitted responses
are exactly those of the preceding entries followed by one placeholder error
response with id and name "unknown" — the entry itself and all later entries
receive no echoing response. -/
theorem funcall_response_batch_behavior (functionMap : FunctionMap)
    (calls : List FunctionCall) (i : Nat) (fc : FunctionCall)
    (hget : calls.get? i = some fc)
    (hok : okUpTo functionMap calls i) :
    (∀ r, callStep functionMap fc = Except.ok r →
      (handleFunctionCallRequest functionMap calls).get? i =
        some (mkFunctionCallResponse fc r)) ∧
    (∀ e, callStep functionMap fc = Except.error e →
      handleFunctionCallRequest functionMap calls =
        (calls.take i).map (responseFor functionMap) ++ [batchErrorResponse e]) := by
  constructor
  · intro r hr
    have hok1 : okUpTo functionMap calls (i + 1) := by
      intro g hg
      rw [List.take_succ] at hg
      have hget2 : calls[i]? = some fc := by rw [← List.get?_eq_getElem?]; exact hget
      rcases List.mem_append.mp hg with hg | hg
      · exact hok g hg
      · rw [hget2] at hg
        simp at hg
        subst hg
        rw [hr]
        rfl
    obtain ⟨r', hr', hres⟩ := handleFCR_get_ok functionMap calls i fc hget hok1
    rw [hr] at hr'
    injection hr' with h
    subst h
    exact hres
  · intro e he
    exact handleFCR_fail functionMap calls i fc e hget hok he

/-- Witness for C5 (amended): two-entry request [nope/1, boom/2] under the
table registering the throwing "boom" handler, at index 1. -/
theorem funcall_response_batch_witness :
    (([{ name := "nope", id := "1", arguments := "null" },
       { name := "boom", id := "2", arguments := "null" }] : List FunctionCall).get? 1 =
      some { name := "boom", id := "2", arguments := "null" }) ∧
    okUpTo boomFunctionMap
      [{ name := "nope", id := "1", arguments := "null" },
       { name := "boom", id := "2", arguments := "null" }] 1 ∧
    ((∀ r, callStep boomFunctionMap { name := "boom", id := "2", arguments := "null" } =
          Except.ok r →
        (handleFunctionCallRequest boomFunctionMap
            [{ name := "nope", id := "1", arguments := "null" },
             { name := "boom", id := "2", arguments := "null" }]).get? 1 =
          some (mkFunctionCallResponse { name := "boom", id := "2", arguments := "null" } r)) ∧
     (∀ e, callStep boomFunctionMap { name := "boom", id := "2", arguments := "null" } =
          Except.error e →
        handleFunctionCallRequest boomFunctionMap
            [{ name := "nope", id := "1", arguments := "null" },
             { name := "boom", id := "2", arguments := "null" }] =
          (([{ name := "nope", id := "1", arguments := "null" },
             { name := "boom", id := "2", arguments := "null" }] : List FunctionCall).take 1).map
              (responseFor boomFunctionMap) ++ [batchErrorResponse e])) :=
  ⟨rfl, by decide,
   funcall_response_batch_behavior boomFunctionMap
     [{ name := "nope", id := "1", arguments := "null" },
      { name := "boom", id := "2", arguments := "null" }] 1
     { name := "boom", id := "2", arguments := "null" } rfl (by decide)⟩

/-! ## Connection supervisor timer (`setupWebSocketHandlers` /
`handleTwilioConnection`)

The per-session lifecycle is modelled as a transition system over the events
the registered handlers react to. The 30-second connection-establishment
timer is started (`setTimeout`) before `handleTwilioConnection` runs; the
handlers that call `clearTimeout` are: the speech peer's `open` handler, the
telephony socket's `error` handler, and the `catch` block of
`handleTwilioConnection`. The telephony socket's `close` handler only closes
the speech-peer connection — it does not clear the timer. -/

inductive SupervisorEvent where
  | speechOpen
  | speechClose
  | speechError
  | twilioClose
  | twilioError
  | timerFire
  | setupFailure
deriving DecidableEq

structure SupervisorState where
  timerActive : Bool
  clearCount : Nat
  timerFired : Bool
  twilioOpen : Bool
  speechOpened : Bool
deriving DecidableEq

/-- State right after the connection is accepted and `setTimeout` has run. -/
def initialSupervisorState : SupervisorState :=
  { timerActive := true, clearCount := 0, timerFired := false,
    twilioOpen := true, speechOpened := false }

/-- `clearTimeout(connectionTimeout)`: deactivates the timer; calling it on an
already-cleared timer is a no-op on the timer (and never an error).
`clearCount` counts the calls. -/
def clearConnectionTimer (s : SupervisorState) : SupervisorState :=
  { s with timerActive := false, clearCount := s.clearCount + 1 }

/-- One handler invocation per event, as registered in the source:
`deepgramConnection.on('open')` clears the timer and sends the agent config;
`deepgramConnection.on('close'/'error')` only log; `ws.on('close')` closes the
speech connection (no `clearTimeout`); `ws.on('error')` clears the timer; the
timeout callback closes the telephony socket; the `catch` of
`handleTwilioConnection` clears the timer. -/
def supervisorStep (s : SupervisorState) : SupervisorEvent → SupervisorState
  | SupervisorEvent.speechOpen => clearConnectionTimer { s with speechOpened := true }
  | SupervisorEvent.speechClose => s
  | SupervisorEvent.speechError => s
  | SupervisorEvent.twilioClose => { s with twilioOpen := false }
  | SupervisorEvent.twilioError => clearConnectionTimer s
  | SupervisorEvent.timerFire =>
      if s.timerActive then
        { s with timerActive := false, timerFired := true, twilioOpen := false }
      else s
  | SupervisorEvent.setupFailure => clearConnectionTimer s

def runSupervisor (tr : List SupervisorEvent) : SupervisorState :=
  tr.foldl supervisorStep initialSupervisorState

/-- The events whose handlers call `clearTimeout`. -/
def cancelsTimer : SupervisorEvent → Bool
  | SupervisorEvent.speechOpen => true
  | SupervisorEvent.twilioError => true
  | SupervisorEvent.setupFailure => true
  | _ => false

/-- The events that deactivate the timer (cancellation or firing). -/
def stopsTimer (e : SupervisorEvent) : Bool :=
  cancelsTimer e || e == SupervisorEvent.timerFire

/-- C10 counterexample: the execution in which the telephony peer disconnects
cleanly before the speech peer opens. The session is over (`twilioOpen =
false`) yet the timer was never cancelled (`clearCount = 0`, still active),
refuting "cancelled exactly once … on connection close" and "no execution
path that ends the session leaves the timer uncancelled". -/
theorem timer_cancel_counterexample :
    (runSupervisor [SupervisorEvent.twilioClose]).twilioOpen = false ∧
    (runSupervisor [SupervisorEvent.twilioClose]).timerActive = true ∧
    (runSupervisor [SupervisorEvent.twilioClose]).clearCount = 0 := by
  decide

lemma supervisor_run_invariant : ∀ (tr : List SupervisorEvent) (s : SupervisorState),
    (tr.foldl supervisorStep s).clearCount = s.clearCount + tr.countP cancelsTimer ∧
    (tr.foldl supervisorStep s).timerActive = (s.timerActive && !tr.any stopsTimer)
  | [], s => by simp
  | e :: tr, s => by
      obtain ⟨ih1, ih2⟩ := supervisor_run_invariant tr (supervisorStep s e)
      have hstep : (supervisorStep s e).clearCount =
          s.clearCount + (if cancelsTimer e then 1 else 0) ∧
          (supervisorStep s e).timerActive = (s.timerActive && !stopsTimer e) := by
        cases e <;>
          simp [supervisorStep, clearConnectionTimer, cancelsTimer, stopsTimer] <;>
          split <;> simp_all
      constructor
      · rw [List.foldl_cons, ih1, hstep.1, List.countP_cons]
        omega
      · rw [List.foldl_cons, ih2, hstep.2, List.any_cons]
        have hb : ∀ a b c : Bool, ((a && !b) && !c) = (a && !(b || c)) := by decide
        exact hb _ _ _

/-- C10 (amended): the connection-establishment timer is cancelled on
speech-peer open, on telephony-socket error, and on a setup exception — once
per such event — and on no other event; in particular a session that ends in
a clean telephony close before any of those events leaves the timer pending
(it later fires against the already-closed socket), and the timer is inactive
after an execution exactly when some cancelling or firing event occurred.
Cancelling an already-cancelled timer is a no-op on the timer, not an error. -/
theorem connection_timer_characterization :
    (∀ tr : List SupervisorEvent,
      (runSupervisor tr).clearCount = tr.countP cancelsTimer ∧
      (runSupervisor tr).timerActive = !tr.any stopsTimer) ∧
    (∀ s : SupervisorState, (clearConnectionTimer (clearConnectionTimer s)).timerActive = false) := by
  constructor
  · intro tr
    obtain ⟨h1, h2⟩ := supervisor_run_invariant tr initialSupervisorState
    refine ⟨by rw [runSupervisor, h1]; simp [initialSupervisorState], ?_⟩
    rw [runSupervisor, h2]
    rfl
  · intro s
    rfl
